import Mathlib

/-!
Shallow embedding of the checkout / cart core of the lovestore-commerce-hub
storefront.

Numbers: TypeScript `number` values that the code only ever adds, multiplies
and compares are modelled exactly — prices as `ℚ`, stock levels and
quantities as `ℤ` (the database column is an integer; the code subtracts and
compares them).

Sources embedded:
  * `Cart.tsx`   — `updateQuantity`, `removeFromCart`, `clearCart`,
                   `getTotalPrice`;
  * product pages — `handleAddToCart` (find existing line / push snapshot);
  * checkout page — `validateForm`, `loadCartFromStorage`,
                   `handlePlaceOrder` (stock check, stock overwrite,
                   order insert, cart clear).

Asynchronous supabase calls are modelled as a sequential trace of attempted
external effects (`Effect`) plus an explicit database state (`DB`);
`Promise.all` issues every request of a batch, so every request of a batch
appears in the trace even when one of them fails.
-/

/-- A product row as read from the `products` table. -/
structure Product where
  id : String
  name : String
  price : ℚ
  image : String
  stock : ℤ
  category : String
  description : String
deriving DecidableEq, Repr

/-- A cart line as persisted in local storage: a snapshot of the product's
fields plus the requested `quantity` (`{...product, quantity}`). -/
structure CartItem where
  id : String
  name : String
  price : ℚ
  image : String
  stock : ℤ
  category : String
  description : String
  quantity : ℤ
deriving DecidableEq, Repr

/-- The new line pushed by `handleAddToCart` when no line for the product
exists: `existingCart.push({ ...product, quantity })`. -/
def snapshotLine (product : Product) (quantity : ℤ) : CartItem :=
  { id := product.id, name := product.name, price := product.price,
    image := product.image, stock := product.stock,
    category := product.category, description := product.description,
    quantity := quantity }

/-- `handleAddToCart` (product pages): find the first line whose id matches
the product (`findIndex`); bump its quantity by `qty` if found, else push a
snapshot line at the end. No stock check is performed here. -/
def addToCart (product : Product) (qty : ℤ) : List CartItem → List CartItem
  | [] => [snapshotLine product qty]
  | item :: rest =>
      if item.id = product.id then
        { item with quantity := item.quantity + qty } :: rest
      else
        item :: addToCart product qty rest

/-- `removeFromCart` (Cart.tsx): `cartItems.filter(item => item.id !== itemId)`. -/
def removeFromCart (itemId : String) (cart : List CartItem) : List CartItem :=
  cart.filter (fun item => item.id ≠ itemId)

/-- `clearCart` (Cart.tsx): `saveCartToStorage([])`. -/
def clearCart (_cart : List CartItem) : List CartItem := []

/-- `updateQuantity` (Cart.tsx). If `newQuantity < 1` the line is removed
(`removeFromCart`).  Otherwise each matching line is clamped to its stock
snapshot when `newQuantity > item.stock` (in which case a "Stock limit
reached" toast fires — returned here as the second component), else set
exactly. -/
def updateQuantity (itemId : String) (newQuantity : ℤ) (cart : List CartItem) :
    List CartItem × Bool :=
  if newQuantity < 1 then
    (removeFromCart itemId cart, false)
  else
    (cart.map (fun item =>
        if item.id = itemId then
          if newQuantity > item.stock then { item with quantity := item.stock }
          else { item with quantity := newQuantity }
        else item),
     cart.any (fun item => item.id = itemId && decide (newQuantity > item.stock)))

/-- `getTotalPrice` (Cart.tsx and checkout page):
`cartItems.reduce((total, item) => total + item.price * item.quantity, 0)`. -/
def getTotalPrice (cartItems : List CartItem) : ℚ :=
  cartItems.foldl (fun total item => total + item.price * (item.quantity : ℚ)) 0

/-- `getTotalItems`: `reduce((total, item) => total + item.quantity, 0)`. -/
def getTotalItems (cartItems : List CartItem) : ℤ :=
  cartItems.foldl (fun total item => total + item.quantity) 0

/-- The shipping form state of the checkout page. -/
structure ShippingInfo where
  firstName : String
  lastName : String
  email : String
  phone : String
  address : String
  city : String
  state : String
  zipCode : String
deriving DecidableEq, Repr

/-- JavaScript `String.prototype.trim`: strip leading and trailing
whitespace. -/
def trimStr (s : String) : String :=
  ⟨((s.data.dropWhile Char.isWhitespace).reverse.dropWhile
      Char.isWhitespace).reverse⟩

/-- `validateForm` (checkout page): every one of the eight required fields
must be non-blank after `trim()`. -/
def validateForm (s : ShippingInfo) : Bool :=
  trimStr s.firstName ≠ "" && trimStr s.lastName ≠ "" &&
  trimStr s.email ≠ "" && trimStr s.phone ≠ "" && trimStr s.address ≠ "" &&
  trimStr s.city ≠ "" && trimStr s.state ≠ "" && trimStr s.zipCode ≠ ""

/-- Result of the per-line stock query during verification:
`{ id, currentStock: data.stock, requestedQty: item.quantity }`. -/
structure StockCheck where
  id : String
  currentStock : ℤ
  requestedQty : ℤ
deriving DecidableEq, Repr

/-- The verification reads: one `select('stock')` per cart line against the
live `products` table. -/
def stockChecks (stocks : String → ℤ) (cartItems : List CartItem) :
    List StockCheck :=
  cartItems.map (fun item =>
    { id := item.id, currentStock := stocks item.id,
      requestedQty := item.quantity })

/-- `stockChecks.filter(check => check.currentStock < check.requestedQty)`. -/
def outOfStock (checks : List StockCheck) : List StockCheck :=
  checks.filter (fun check => check.currentStock < check.requestedQty)

/-- The absolute stock value written for one line:
`(stockChecks.find(check => check.id === item.id)?.currentStock || 0) - item.quantity`.
(`x || 0` collapses a missing check to `0`; a found check with stock `0` also
yields `0`, so `getD 0` is exact.) -/
def newStockFor (checks : List StockCheck) (item : CartItem) : ℤ :=
  (((checks.find? (fun check => check.id = item.id)).map
      (fun check => check.currentStock)).getD 0) - item.quantity

/-- An order row as inserted into the `orders` table. -/
structure Order where
  user_id : String
  products : List CartItem
  total : ℚ
  status : String
deriving DecidableEq, Repr

/-- The state of the authoritative store: per-product stock plus the list of
order rows. -/
structure DB where
  stocks : String → ℤ
  orders : List Order

/-- One attempted external write / read, in the sequence the checkout code
awaits them. -/
inductive Effect where
  | readStock (id : String)
  | writeStock (id : String) (newStock : ℤ)
  | insertOrder (order : Order)
deriving DecidableEq, Repr

/-- User-facing outcome of one run of `handlePlaceOrder`. -/
inductive CheckoutResult where
  | validationFailed
  | noUser
  | stockShortage (shortages : List StockCheck)
  | orderFailed
  | success
deriving DecidableEq, Repr

/-- Everything observable after one run of `handlePlaceOrder`: the outcome,
the final store, the trace of attempted effects, the cart left in local
storage. -/
structure CheckoutOutcome where
  result : CheckoutResult
  db : DB
  effects : List Effect
  cart : List CartItem

/-- `update({ stock: v }).eq('id', pid)`: point update of one product row. -/
def writeStock (pid : String) (v : ℤ) (db : DB) : DB :=
  { db with stocks := fun q => if q = pid then v else db.stocks q }

/-- Apply the batch of stock updates: each one overwrites its product's
stock with `newStockFor`; a row whose individual request fails
(`writeOk = false`) is not applied, but the batch still issues the rest. -/
def applyStockWrites (checks : List StockCheck) (writeOk : String → Bool)
    (cartItems : List CartItem) (db : DB) : DB :=
  cartItems.foldl
    (fun d item =>
      if writeOk item.id then writeStock item.id (newStockFor checks item) d
      else d)
    db

/-- `handlePlaceOrder` (checkout page).  `user` is the session user id,
`insertOk` (resp. `writeOk`) injects the success or failure of the order
insert (resp. of each stock update request).

Control flow of the source: `validateForm` guard, `user` guard, stock reads
(`Promise.all`), shortage filter with early return, stock update batch
(`Promise.all` — every request is issued), order insert only if no update
threw, `localStorage.removeItem('cart')` only after a successful insert;
any thrown error lands in the catch ("Order failed"). -/
def handlePlaceOrder (user : Option String) (shipping : ShippingInfo)
    (cartItems : List CartItem) (writeOk : String → Bool) (insertOk : Bool)
    (db : DB) : CheckoutOutcome :=
  if ¬ validateForm shipping then
    { result := .validationFailed, db := db, effects := [], cart := cartItems }
  else
    match user with
    | none => { result := .noUser, db := db, effects := [], cart := cartItems }
    | some uid =>
      let reads := cartItems.map (fun item => Effect.readStock item.id)
      let checks := stockChecks db.stocks cartItems
      let oos := outOfStock checks
      if oos ≠ [] then
        { result := .stockShortage oos, db := db, effects := reads,
          cart := cartItems }
      else
        let writes := cartItems.map
          (fun item => Effect.writeStock item.id (newStockFor checks item))
        let db1 := applyStockWrites checks writeOk cartItems db
        if cartItems.all (fun item => writeOk item.id) then
          let order : Order :=
            { user_id := uid, products := cartItems,
              total := getTotalPrice cartItems * 1.08, status := "pending" }
          if insertOk then
            { result := .success,
              db := { db1 with orders := db1.orders ++ [order] },
              effects := reads ++ writes ++ [Effect.insertOrder order],
              cart := [] }
          else
            { result := .orderFailed, db := db1,
              effects := reads ++ writes ++ [Effect.insertOrder order],
              cart := cartItems }
        else
          { result := .orderFailed, db := db1, effects := reads ++ writes,
            cart := cartItems }

/-- What the checkout page does on mount with the persisted cart
(`loadCartFromStorage`): a missing or empty cart redirects back to `/cart`,
so the place-order form is only reachable with a non-empty cart. -/
inductive LoadResult where
  | proceed (items : List CartItem)
  | redirectToCart
deriving DecidableEq, Repr

/-- `loadCartFromStorage` (checkout page). -/
def loadCartFromStorage (savedCart : Option (List CartItem)) : LoadResult :=
  match savedCart with
  | some items => if items.length = 0 then .redirectToCart else .proceed items
  | none => .redirectToCart

/-- A sequence of add-to-cart operations, applied left to right. -/
def addAll (adds : List (Product × ℤ)) (cart : List CartItem) : List CartItem :=
  adds.foldl (fun c pq => addToCart pq.1 pq.2 c) cart

/-! ### Spec-side definitions, for comparison with the code

The two definitions below follow the specification text, not the source;
they exist only to be compared against the source-derived functions. -/

/-- The specification's rounding of a money amount to 2 decimal places. -/
def specRound2 (q : ℚ) : ℚ := ((round (q * 100) : ℤ) : ℚ) / 100

/-- The specification's description of `totals()`:
subtotal = Σ price×qty; tax = round(subtotal×0.08, 2 decimal places);
total = subtotal + tax. -/
def specTotals (cart : List CartItem) : ℚ × ℚ × ℚ :=
  let subtotal := getTotalPrice cart
  let tax := specRound2 (subtotal * 0.08)
  (subtotal, tax, subtotal + tax)

/-! ### Concrete inputs used by witnesses and counterexamples -/

/-- A fully filled shipping form. -/
def shippingOkC : ShippingInfo :=
  { firstName := "Ada", lastName := "L", email := "a@b.c", phone := "1",
    address := "1 Main St", city := "X", state := "Y", zipCode := "12345" }

/-- A shipping form with a blank (whitespace-only) city. -/
def shippingBlankC : ShippingInfo :=
  { firstName := "Ada", lastName := "L", email := "a@b.c", phone := "1",
    address := "1 Main St", city := "  ", state := "Y", zipCode := "12345" }

/-- Scenario A line: product P1, price 10.00, quantity 2, stock snapshot 5. -/
def itemA : CartItem :=
  { id := "p1", name := "P1", price := 10, image := "", stock := 5,
    category := "Electronics", description := "", quantity := 2 }

/-- Scenario B line: product P1 requested at quantity 10. -/
def itemB10 : CartItem := { itemA with quantity := 10 }

/-- Scenario C second line: product P2, quantity 1. -/
def itemP2 : CartItem :=
  { id := "p2", name := "P2", price := 5, image := "", stock := 3,
    category := "Electronics", description := "", quantity := 1 }

/-- A store where P1 has 5 units and every other product 0. -/
def dbA : DB :=
  { stocks := fun pid => if pid = "p1" then 5 else 0, orders := [] }

/-- A line whose subtotal (10.01) makes 8% tax a non-2-decimal amount. -/
def itemC6 : CartItem :=
  { id := "p6", name := "P6", price := 1001 / 100, image := "", stock := 5,
    category := "Groceries", description := "", quantity := 1 }

/-- A store holding 5 units of the C6 product. -/
def dbC6 : DB :=
  { stocks := fun pid => if pid = "p6" then 5 else 0, orders := [] }

/-- A product with a single unit in stock. -/
def productC9 : Product :=
  { id := "p9", name := "P9", price := 2, image := "", stock := 1,
    category := "Clothing", description := "" }

/-- The product whose line is the first entry of `cartW`. -/
def productW : Product :=
  { id := "a", name := "A", price := 3, image := "", stock := 10,
    category := "Electronics", description := "" }

/-- A two-line cart used by the cart-operation witnesses. -/
def cartW : List CartItem :=
  [{ id := "a", name := "A", price := 3, image := "", stock := 10,
     category := "Electronics", description := "", quantity := 1 },
   { id := "b", name := "B", price := 4, image := "", stock := 10,
     category := "Electronics", description := "", quantity := 2 }]

/-! ### Helper lemmas -/

theorem outOfStock_stockChecks (stocks : String → ℤ) (cart : List CartItem) :
    outOfStock (stockChecks stocks cart)
      = (cart.filter (fun item => decide (stocks item.id < item.quantity))).map
          (fun item =>
            { id := item.id, currentStock := stocks item.id,
              requestedQty := item.quantity }) := by
  induction cart with
  | nil => rfl
  | cons x rest ih =>
      simp only [stockChecks, List.map_cons, outOfStock, List.filter_cons] at *
      by_cases h : stocks x.id < x.quantity
      · simp [h, ih]
      · simp [h, ih]

theorem outOfStock_ne_nil_iff (stocks : String → ℤ) (cart : List CartItem) :
    outOfStock (stockChecks stocks cart) ≠ [] ↔
      ∃ item ∈ cart, stocks item.id < item.quantity := by
  rw [outOfStock_stockChecks]
  simp only [ne_eq, List.map_eq_nil_iff, List.filter_eq_nil_iff, decide_eq_true_eq]
  push_neg
  rfl

theorem newStockFor_eq (stocks : String → ℤ) (cart : List CartItem)
    (item : CartItem) (h : item ∈ cart) :
    newStockFor (stockChecks stocks cart) item
      = stocks item.id - item.quantity := by
  induction cart with
  | nil => cases h
  | cons x rest ih =>
      by_cases hx : x.id = item.id
      · simp [stockChecks, newStockFor, List.find?_cons, hx]
      · have hmem : item ∈ rest := by
          rcases List.mem_cons.1 h with h1 | h1
          · exact absurd (congrArg CartItem.id h1.symm) hx
          · exact h1
        have step : newStockFor (stockChecks stocks (x :: rest)) item
            = newStockFor (stockChecks stocks rest) item := by
          simp [stockChecks, newStockFor, List.find?_cons, hx]
        rw [step]
        exact ih hmem

theorem applyStockWrites_orders (checks : List StockCheck) (w : String → Bool)
    (cart : List CartItem) :
    ∀ db : DB, (applyStockWrites checks w cart db).orders = db.orders := by
  induction cart with
  | nil => intro db; rfl
  | cons x rest ih =>
      intro db
      show (applyStockWrites checks w rest
        (if w x.id = true then writeStock x.id (newStockFor checks x) db
         else db)).orders = db.orders
      rw [ih]
      by_cases h : w x.id = true <;> simp [h, writeStock]

theorem applyStockWrites_stocks_notmem (checks : List StockCheck)
    (w : String → Bool) (cart : List CartItem) :
    ∀ (db : DB) (pid : String), pid ∉ cart.map CartItem.id →
      (applyStockWrites checks w cart db).stocks pid = db.stocks pid := by
  induction cart with
  | nil => intro db pid _; rfl
  | cons x rest ih =>
      intro db pid h
      simp only [List.map_cons, List.mem_cons] at h
      push_neg at h
      obtain ⟨h1, h2⟩ := h
      show (applyStockWrites checks w rest
        (if w x.id = true then writeStock x.id (newStockFor checks x) db
         else db)).stocks pid = db.stocks pid
      rw [ih _ _ h2]
      by_cases hw : w x.id = true <;> simp [hw, writeStock, h1]

theorem applyStockWrites_stocks_mem (checks : List StockCheck)
    (w : String → Bool) (cart : List CartItem) :
    ∀ (db : DB) (item : CartItem), (cart.map CartItem.id).Nodup →
      item ∈ cart → w item.id = true →
      (applyStockWrites checks w cart db).stocks item.id
        = newStockFor checks item := by
  induction cart with
  | nil => intro db item _ hmem _; cases hmem
  | cons x rest ih =>
      intro db item hnd hmem hw
      simp only [List.map_cons, List.nodup_cons] at hnd
      obtain ⟨hx, hnd2⟩ := hnd
      rcases List.mem_cons.1 hmem with h1 | h1
      · subst h1
        show (applyStockWrites checks w rest
          (if w item.id = true then writeStock item.id (newStockFor checks item) db
           else db)).stocks item.id = newStockFor checks item
        rw [applyStockWrites_stocks_notmem checks w rest _ item.id hx]
        rw [if_pos hw]
        simp [writeStock]
      · show (applyStockWrites checks w rest
          (if w x.id = true then writeStock x.id (newStockFor checks x) db
           else db)).stocks item.id = newStockFor checks item
        exact ih _ item hnd2 h1 hw

/-! ### Claim theorems -/

/-- C1. Stock verification fails exactly when some cart line's requested
quantity exceeds its currently observed stock: the verification step reports
shortages iff at least one line has requested quantity > observed stock, the
shortage list contains exactly those lines (lines within stock excluded),
and a single shortage makes the whole checkout attempt end in the
stock-shortage outcome. -/
theorem verify_shortage_iff (db : DB) (cart : List CartItem) (user : String)
    (shipping : ShippingInfo) (writeOk : String → Bool) (insertOk : Bool)
    (hv : validateForm shipping = true) :
    (outOfStock (stockChecks db.stocks cart) ≠ [] ↔
        ∃ item ∈ cart, db.stocks item.id < item.quantity) ∧
    outOfStock (stockChecks db.stocks cart)
      = (cart.filter (fun item =>
            decide (db.stocks item.id < item.quantity))).map
          (fun item =>
            { id := item.id, currentStock := db.stocks item.id,
              requestedQty := item.quantity }) ∧
    (outOfStock (stockChecks db.stocks cart) ≠ [] →
      (handlePlaceOrder (some user) shipping cart writeOk insertOk db).result
        = .stockShortage (outOfStock (stockChecks db.stocks cart))) := by
  refine ⟨outOfStock_ne_nil_iff db.stocks cart,
          outOfStock_stockChecks db.stocks cart, ?_⟩
  intro hs
  simp [handlePlaceOrder, hv, hs]

theorem verify_shortage_iff_witness :
    validateForm shippingOkC = true ∧
    (handlePlaceOrder (some "u1") shippingOkC [itemB10] (fun _ => true) true
        dbA).result
      = .stockShortage [{ id := "p1", currentStock := 5, requestedQty := 10 }] := by
  have h := verify_shortage_iff dbA [itemB10] "u1" shippingOkC (fun _ => true)
    true (by decide)
  refine ⟨by decide, ?_⟩
  rw [h.2.2 (by decide)]
  decide

/-- C3. When verification reports any shortage, the checkout attempt aborts
with no side effects: the store (stocks and orders) is unchanged, the cart is
left untouched, and the only external effects attempted are the stock
reads. -/
theorem shortage_aborts_no_side_effects (db : DB) (cart : List CartItem)
    (user : String) (shipping : ShippingInfo) (writeOk : String → Bool)
    (insertOk : Bool) (hv : validateForm shipping = true)
    (hs : outOfStock (stockChecks db.stocks cart) ≠ []) :
    (handlePlaceOrder (some user) shipping cart writeOk insertOk db).result
      = .stockShortage (outOfStock (stockChecks db.stocks cart)) ∧
    (handlePlaceOrder (some user) shipping cart writeOk insertOk db).db = db ∧
    (handlePlaceOrder (some user) shipping cart writeOk insertOk db).cart
      = cart ∧
    ∀ e ∈ (handlePlaceOrder (some user) shipping cart writeOk insertOk
        db).effects, ∃ pid, e = Effect.readStock pid := by
  have hred : handlePlaceOrder (some user) shipping cart writeOk insertOk db
      = { result := .stockShortage (outOfStock (stockChecks db.stocks cart)),
          db := db,
          effects := cart.map (fun item => Effect.readStock item.id),
          cart := cart } := by
    simp [handlePlaceOrder, hv, hs]
  rw [hred]
  refine ⟨rfl, rfl, rfl, ?_⟩
  intro e he
  rcases List.mem_map.1 he with ⟨item, _, rfl⟩
  exact ⟨item.id, rfl⟩

theorem shortage_aborts_no_side_effects_witness :
    (handlePlaceOrder (some "u1") shippingOkC [itemA, itemP2] (fun _ => true)
        true dbA).db.stocks "p1" = 5 ∧
    (handlePlaceOrder (some "u1") shippingOkC [itemA, itemP2] (fun _ => true)
        true dbA).db.orders = [] ∧
    (handlePlaceOrder (some "u1") shippingOkC [itemA, itemP2] (fun _ => true)
        true dbA).cart = [itemA, itemP2] := by
  have h := shortage_aborts_no_side_effects dbA [itemA, itemP2] "u1"
    shippingOkC (fun _ => true) true (by decide) (by decide)
  exact ⟨by rw [h.2.1]; decide, by rw [h.2.1]; rfl, h.2.2.1⟩

theorem handlePlaceOrder_effects_ok (db : DB) (cart : List CartItem)
    (user : String) (shipping : ShippingInfo) (writeOk : String → Bool)
    (insertOk : Bool) (hv : validateForm shipping = true)
    (hok : outOfStock (stockChecks db.stocks cart) = []) :
    ∃ tail,
      (handlePlaceOrder (some user) shipping cart writeOk insertOk db).effects
        = cart.map (fun item => Effect.readStock item.id)
          ++ (cart.map (fun item =>
                Effect.writeStock item.id
                  (newStockFor (stockChecks db.stocks cart) item))
              ++ tail) ∧
      (tail = [] ∨ ∃ order, tail = [Effect.insertOrder order]) := by
  by_cases hall : cart.all (fun item => writeOk item.id) = true
  · by_cases hins : insertOk = true
    · refine ⟨[Effect.insertOrder
        { user_id := user, products := cart,
          total := getTotalPrice cart * 1.08, status := "pending" }],
        ?_, Or.inr ⟨_, rfl⟩⟩
      simp [handlePlaceOrder, hv, hok, hall, hins]
    · refine ⟨[Effect.insertOrder
        { user_id := user, products := cart,
          total := getTotalPrice cart * 1.08, status := "pending" }],
        ?_, Or.inr ⟨_, rfl⟩⟩
      simp [handlePlaceOrder, hv, hok, hall, hins]
  · refine ⟨[], ?_, Or.inl rfl⟩
    simp [handlePlaceOrder, hv, hok, hall]

/-- C2. For every line of a verified cart, the commit step writes
new stock = (stock observed at verification time) − (requested quantity):
an absolute overwrite recomputed from the verification-time value; and
whenever the order insert is issued, it is the last effect of the trace,
with every stock write attempted before it. -/
theorem commit_absolute_overwrite (db : DB) (cart : List CartItem)
    (user : String) (shipping : ShippingInfo) (writeOk : String → Bool)
    (insertOk : Bool) (hv : validateForm shipping = true)
    (hok : outOfStock (stockChecks db.stocks cart) = []) :
    (∀ item ∈ cart,
        newStockFor (stockChecks db.stocks cart) item
          = db.stocks item.id - item.quantity) ∧
    (∀ item ∈ cart,
        Effect.writeStock item.id (db.stocks item.id - item.quantity)
          ∈ (handlePlaceOrder (some user) shipping cart writeOk insertOk
              db).effects) ∧
    (∀ o, Effect.insertOrder o
          ∈ (handlePlaceOrder (some user) shipping cart writeOk insertOk
              db).effects →
       ∃ pre,
         (handlePlaceOrder (some user) shipping cart writeOk insertOk
             db).effects = pre ++ [Effect.insertOrder o] ∧
         ∀ item ∈ cart,
           Effect.writeStock item.id (db.stocks item.id - item.quantity)
             ∈ pre) := by
  have hnew : ∀ item ∈ cart,
      newStockFor (stockChecks db.stocks cart) item
        = db.stocks item.id - item.quantity :=
    fun item h => newStockFor_eq db.stocks cart item h
  obtain ⟨tail, heff, htail⟩ :=
    handlePlaceOrder_effects_ok db cart user shipping writeOk insertOk hv hok
  have hwmem : ∀ item ∈ cart,
      Effect.writeStock item.id (db.stocks item.id - item.quantity)
        ∈ cart.map (fun it =>
            Effect.writeStock it.id
              (newStockFor (stockChecks db.stocks cart) it)) :=
    fun item hmem => List.mem_map.2 ⟨item, hmem, by rw [hnew item hmem]⟩
  refine ⟨hnew, ?_, ?_⟩
  · intro item hmem
    rw [heff]
    exact List.mem_append.2
      (Or.inr (List.mem_append.2 (Or.inl (hwmem item hmem))))
  · intro o ho
    rw [heff] at ho ⊢
    rcases htail with rfl | ⟨order, rfl⟩
    · exfalso
      simp [List.mem_append, List.mem_map] at ho
    · have hoo : o = order := by
        simp [List.mem_append, List.mem_map] at ho
        exact ho
      subst hoo
      refine ⟨cart.map (fun item => Effect.readStock item.id)
        ++ cart.map (fun it =>
             Effect.writeStock it.id
               (newStockFor (stockChecks db.stocks cart) it)),
        by rw [List.append_assoc], ?_⟩
      intro item hmem
      exact List.mem_append.2 (Or.inr (hwmem item hmem))

theorem commit_absolute_overwrite_witness :
    Effect.writeStock "p1" 3
      ∈ (handlePlaceOrder (some "u1") shippingOkC [itemA] (fun _ => true)
          true dbA).effects := by
  have h := commit_absolute_overwrite dbA [itemA] "u1" shippingOkC
    (fun _ => true) true (by decide) (by decide)
  have h2 := h.2.1 itemA (List.mem_singleton.2 rfl)
  have heq : Effect.writeStock "p1" 3
      = Effect.writeStock itemA.id (dbA.stocks itemA.id - itemA.quantity) := by
    decide
  rw [heq]
  exact h2

/-- C4. If the order insert fails after the stock updates, the checkout
attempt ends in the failure outcome with the already-applied stock
decrements kept (each product of the cart holds verification-time stock
minus quantity, every other product is untouched), no order record created,
and the cart not cleared. -/
theorem insert_failure_no_rollback (db : DB) (cart : List CartItem)
    (user : String) (shipping : ShippingInfo)
    (hv : validateForm shipping = true)
    (hok : outOfStock (stockChecks db.stocks cart) = [])
    (hnd : (cart.map CartItem.id).Nodup) :
    (handlePlaceOrder (some user) shipping cart (fun _ => true) false
        db).result = .orderFailed ∧
    (handlePlaceOrder (some user) shipping cart (fun _ => true) false
        db).db.orders = db.orders ∧
    (handlePlaceOrder (some user) shipping cart (fun _ => true) false
        db).cart = cart ∧
    (∀ item ∈ cart,
      (handlePlaceOrder (some user) shipping cart (fun _ => true) false
          db).db.stocks item.id = db.stocks item.id - item.quantity) ∧
    (∀ pid, pid ∉ cart.map CartItem.id →
      (handlePlaceOrder (some user) shipping cart (fun _ => true) false
          db).db.stocks pid = db.stocks pid) := by
  have hred : handlePlaceOrder (some user) shipping cart (fun _ => true)
      false db
      = { result := .orderFailed,
          db := applyStockWrites (stockChecks db.stocks cart) (fun _ => true)
            cart db,
          effects := cart.map (fun item => Effect.readStock item.id)
            ++ (cart.map (fun item =>
                  Effect.writeStock item.id
                    (newStockFor (stockChecks db.stocks cart) item))
                ++ [Effect.insertOrder
                  { user_id := user, products := cart,
                    total := getTotalPrice cart * 1.08,
                    status := "pending" }]),
          cart := cart } := by
    simp [handlePlaceOrder, hv, hok]
  rw [hred]
  refine ⟨rfl, applyStockWrites_orders _ _ _ db, rfl, ?_, ?_⟩
  · intro item hmem
    rw [applyStockWrites_stocks_mem _ _ cart db item hnd hmem rfl]
    exact newStockFor_eq db.stocks cart item hmem
  · intro pid hpid
    exact applyStockWrites_stocks_notmem _ _ cart db pid hpid

theorem insert_failure_no_rollback_witness :
    (handlePlaceOrder (some "u1") shippingOkC [itemA] (fun _ => true) false
        dbA).result = .orderFailed ∧
    (handlePlaceOrder (some "u1") shippingOkC [itemA] (fun _ => true) false
        dbA).db.stocks "p1" = 3 ∧
    (handlePlaceOrder (some "u1") shippingOkC [itemA] (fun _ => true) false
        dbA).db.orders = [] ∧
    (handlePlaceOrder (some "u1") shippingOkC [itemA] (fun _ => true) false
        dbA).cart = [itemA] := by
  have h := insert_failure_no_rollback dbA [itemA] "u1" shippingOkC
    (by decide) (by decide) (by decide)
  refine ⟨h.1, ?_, by rw [h.2.1]; rfl, h.2.2.1⟩
  have h4 := h.2.2.2.1 itemA (List.mem_singleton.2 rfl)
  show (handlePlaceOrder (some "u1") shippingOkC [itemA] (fun _ => true)
      false dbA).db.stocks itemA.id = 3
  rw [h4]
  decide

/-- C5. The place-order action is guarded: the checkout form is only
reachable with a non-empty loaded cart, and when any of the eight required
shipping fields is blank, `handlePlaceOrder` performs no verification, stock
write or order insert and changes no state. -/
theorem place_order_guard (savedCart : Option (List CartItem))
    (items : List CartItem)
    (hload : loadCartFromStorage savedCart = .proceed items) :
    items ≠ [] ∧
    (∀ (user : Option String) (shipping : ShippingInfo)
       (writeOk : String → Bool) (insertOk : Bool) (db : DB),
       validateForm shipping = false →
       handlePlaceOrder user shipping items writeOk insertOk db
         = { result := .validationFailed, db := db, effects := [],
             cart := items }) ∧
    (∀ shipping : ShippingInfo,
       validateForm shipping = true ↔
         (trimStr shipping.firstName ≠ "" ∧ trimStr shipping.lastName ≠ "" ∧
          trimStr shipping.email ≠ "" ∧ trimStr shipping.phone ≠ "" ∧
          trimStr shipping.address ≠ "" ∧ trimStr shipping.city ≠ "" ∧
          trimStr shipping.state ≠ "" ∧ trimStr shipping.zipCode ≠ "")) := by
  refine ⟨?_, ?_, ?_⟩
  · cases savedCart with
    | none => simp [loadCartFromStorage] at hload
    | some l =>
        by_cases h : l.length = 0
        · simp [loadCartFromStorage, h] at hload
        · simp only [loadCartFromStorage, if_neg h, LoadResult.proceed.injEq]
            at hload
          subst hload
          intro hnil
          exact h (by rw [hnil]; rfl)
  · intro user shipping w i db hv
    simp [handlePlaceOrder, hv]
  · intro shipping
    simp only [validateForm, Bool.and_eq_true, decide_eq_true_eq]
    tauto

theorem place_order_guard_witness :
    ([itemA] : List CartItem) ≠ [] ∧
    handlePlaceOrder (some "u1") shippingBlankC [itemA] (fun _ => true) true
        dbA
      = { result := .validationFailed, db := dbA, effects := [],
          cart := [itemA] } := by
  have h := place_order_guard (some [itemA]) [itemA] (by decide)
  exact ⟨h.1, h.2.1 (some "u1") shippingBlankC (fun _ => true) true dbA
    (by decide)⟩

theorem handlePlaceOrder_success_orders (db : DB) (cart : List CartItem)
    (user : String) (shipping : ShippingInfo)
    (hv : validateForm shipping = true)
    (hok : outOfStock (stockChecks db.stocks cart) = []) :
    (handlePlaceOrder (some user) shipping cart (fun _ => true) true
        db).db.orders
      = db.orders
        ++ [{ user_id := user, products := cart,
              total := getTotalPrice cart * 1.08, status := "pending" }] := by
  have hred : (handlePlaceOrder (some user) shipping cart (fun _ => true)
      true db).db.orders
      = (applyStockWrites (stockChecks db.stocks cart) (fun _ => true) cart
          db).orders
        ++ [{ user_id := user, products := cart,
              total := getTotalPrice cart * 1.08, status := "pending" }] := by
    simp [handlePlaceOrder, hv, hok]
  rw [hred, applyStockWrites_orders]

/-- C6 counterexample: the order total the code records is
subtotal × 1.08 without rounding, which differs from
subtotal + round(subtotal×0.08, 2 decimal places) already at a one-line cart
with subtotal 10.01. -/
theorem totals_rounded_tax_counterexample :
    (handlePlaceOrder (some "u1") shippingOkC [itemC6] (fun _ => true) true
        dbC6).result = .success ∧
    (handlePlaceOrder (some "u1") shippingOkC [itemC6] (fun _ => true) true
        dbC6).db.orders.map Order.total
      = [getTotalPrice [itemC6] * 1.08] ∧
    getTotalPrice [itemC6] * 1.08
      ≠ getTotalPrice [itemC6]
        + specRound2 (getTotalPrice [itemC6] * 0.08) ∧
    getTotalPrice [itemC6] * 1.08 ≠ (specTotals [itemC6]).2.2 := by
  have hsub : getTotalPrice [itemC6] = 1001 / 100 := by
    simp [getTotalPrice, itemC6]
  have hne : getTotalPrice [itemC6] * 1.08
      ≠ getTotalPrice [itemC6]
        + specRound2 (getTotalPrice [itemC6] * 0.08) := by
    rw [hsub, specRound2]
    norm_num [round_eq]
  refine ⟨by decide, ?_, hne, ?_⟩
  · rw [handlePlaceOrder_success_orders dbC6 [itemC6] "u1" shippingOkC
      (by decide) (by decide)]
    show List.map Order.total
      (dbC6.orders ++ [({ user_id := "u1", products := [itemC6],
                           total := getTotalPrice [itemC6] * 1.08,
                           status := "pending" } : Order)])
      = [getTotalPrice [itemC6] * 1.08]
    simp [dbC6]
  · show getTotalPrice [itemC6] * 1.08
      ≠ getTotalPrice [itemC6]
        + specRound2 (getTotalPrice [itemC6] * 0.08)
    exact hne

/-- C6 (amended). The cart totals computation is a pure function of the
current cart: subtotal = Σ price×qty over all lines, tax = subtotal×0.08 and
total = subtotal + tax = subtotal×1.08 — with the tax not rounded
(2-decimal rounding happens only in display formatting) — and the total
recorded on a placed order equals this grand total. -/
theorem totals_pure_and_order_total (db : DB) (cart : List CartItem)
    (user : String) (shipping : ShippingInfo)
    (hv : validateForm shipping = true)
    (hok : outOfStock (stockChecks db.stocks cart) = []) :
    getTotalPrice cart
      = (cart.map (fun item => item.price * (item.quantity : ℚ))).sum ∧
    (handlePlaceOrder (some user) shipping cart (fun _ => true) true
        db).db.orders
      = db.orders
        ++ [{ user_id := user, products := cart,
              total := getTotalPrice cart * 1.08, status := "pending" }] ∧
    getTotalPrice cart * 1.08
      = getTotalPrice cart + getTotalPrice cart * 0.08 := by
  refine ⟨?_, ?_, by ring⟩
  · suffices h : ∀ (l : List CartItem) (a : ℚ),
        l.foldl (fun total item => total + item.price * (item.quantity : ℚ)) a
          = a + (l.map (fun item => item.price * (item.quantity : ℚ))).sum by
      simpa [getTotalPrice] using h cart 0
    intro l
    induction l with
    | nil => intro a; simp
    | cons x rest ih =>
        intro a
        simp only [List.foldl_cons, List.map_cons, List.sum_cons, ih]
        ring
  · exact handlePlaceOrder_success_orders db cart user shipping hv hok

theorem totals_pure_and_order_total_witness :
    getTotalPrice [itemA] = 20 ∧
    (handlePlaceOrder (some "u1") shippingOkC [itemA] (fun _ => true) true
        dbA).db.orders.map Order.total = [108 / 5] := by
  have h := totals_pure_and_order_total dbA [itemA] "u1" shippingOkC
    (by decide) (by decide)
  have hsub : getTotalPrice [itemA] = 20 := by
    simp [getTotalPrice, itemA]
    norm_num
  refine ⟨hsub, ?_⟩
  rw [h.2.1, hsub]
  show List.map Order.total
    (dbA.orders ++ [({ user_id := "u1", products := [itemA],
                        total := (20 : ℚ) * 1.08,
                        status := "pending" } : Order)]) = [108 / 5]
  simp [dbA]
  norm_num

theorem updateQuantity_map_noop (itemId : String) (q : ℤ) :
    ∀ l : List CartItem, (∀ y ∈ l, y.id ≠ itemId) →
      l.map (fun item =>
        if item.id = itemId then
          if q > item.stock then { item with quantity := item.stock }
          else { item with quantity := q }
        else item) = l := by
  intro l
  induction l with
  | nil => intro _; rfl
  | cons x rest ih =>
      intro h
      simp only [List.map_cons,
        if_neg (h x (List.mem_cons_self x rest)),
        ih (fun y hy => h y (List.mem_cons_of_mem x hy))]

/-- C7. For every cart, product id and quantity: a quantity below 1 removes
the line (so `setQuantity(id, 0)` is `removeItem(id)` with no capped
signal); a quantity of at least 1 sets every matching line to
`min q stock-snapshot` (clamping exactly when `q` exceeds the snapshot) and
the capped-quantity signal fires iff some matching line's snapshot is below
`q`. -/
theorem updateQuantity_cases (cart : List CartItem) (itemId : String)
    (q : ℤ) :
    (q < 1 → updateQuantity itemId q cart = (removeFromCart itemId cart,
        false)) ∧
    (1 ≤ q →
      (updateQuantity itemId q cart).1
        = cart.map (fun item =>
            if item.id = itemId then
              { item with quantity := min q item.stock }
            else item) ∧
      ((updateQuantity itemId q cart).2 = true ↔
        ∃ item ∈ cart, item.id = itemId ∧ item.stock < q)) := by
  constructor
  · intro hq
    simp [updateQuantity, hq]
  · intro hq
    have hq2 : ¬ q < 1 := not_lt.2 hq
    constructor
    · simp only [updateQuantity, if_neg hq2]
      apply List.map_congr_left
      intro item _
      by_cases hid : item.id = itemId
      · by_cases hs : q > item.stock
        · simp [hid, hs, min_eq_right (le_of_lt hs)]
        · simp [hid, hs, min_eq_left (not_lt.1 hs)]
      · simp [hid]
    · simp only [updateQuantity, if_neg hq2]
      simp [List.any_eq_true]

theorem updateQuantity_cases_witness :
    updateQuantity "a" 0 cartW = (removeFromCart "a" cartW, false) ∧
    (updateQuantity "a" 20 cartW).2 = true := by
  refine ⟨(updateQuantity_cases cartW "a" 0).1 (by decide), ?_⟩
  exact ((updateQuantity_cases cartW "a" 20).2 (by decide)).2.mpr (by decide)

theorem addToCart_existing (product : Product) (qty : ℤ) :
    ∀ (cart : List CartItem) (item : CartItem), item ∈ cart →
      item.id = product.id → (cart.map CartItem.id).Nodup →
      1 ≤ item.quantity → 1 ≤ qty → item.quantity + qty ≤ item.stock →
      addToCart product qty cart
        = (updateQuantity product.id (item.quantity + qty) cart).1 := by
  intro cart
  induction cart with
  | nil => intro item h; cases h
  | cons x rest ih =>
      intro item hmem hid hnd h1 h2 h3
      simp only [List.map_cons, List.nodup_cons] at hnd
      obtain ⟨hx, hnd2⟩ := hnd
      have hq2 : ¬ item.quantity + qty < 1 := by omega
      by_cases hxid : x.id = product.id
      · have hix : item = x := by
          rcases List.mem_cons.1 hmem with h | h
          · exact h
          · exfalso
            apply hx
            have hmm : item.id ∈ List.map CartItem.id rest :=
              List.mem_map_of_mem CartItem.id h
            rw [hid] at hmm
            rw [hxid]
            exact hmm
        subst hix
        have hrest : ∀ y ∈ rest, y.id ≠ product.id := by
          intro y hy hyid
          apply hx
          rw [hid, ← hyid]
          exact List.mem_map_of_mem CartItem.id hy
        have hsq : ¬ item.quantity + qty > item.stock := not_lt.2 h3
        simp [addToCart, updateQuantity, hq2, hid, hsq,
          updateQuantity_map_noop product.id (item.quantity + qty) rest hrest]
      · have hmem2 : item ∈ rest := by
          rcases List.mem_cons.1 hmem with h | h
          · exfalso
            apply hxid
            rw [← h]
            exact hid
          · exact h
        have ihe := ih item hmem2 hid hnd2 h1 h2 h3
        have lhs : addToCart product qty (x :: rest)
            = x :: addToCart product qty rest := by
          simp [addToCart, hxid]
        have rhs : (updateQuantity product.id (item.quantity + qty)
              (x :: rest)).1
            = x :: (updateQuantity product.id (item.quantity + qty) rest).1 := by
          simp [updateQuantity, hq2, hxid]
        rw [lhs, rhs, ihe]

theorem addToCart_new (product : Product) (qty : ℤ) :
    ∀ cart : List CartItem, (∀ item ∈ cart, item.id ≠ product.id) →
      addToCart product qty cart = cart ++ [snapshotLine product qty] := by
  intro cart
  induction cart with
  | nil => intro _; rfl
  | cons x rest ih =>
      intro h
      simp only [addToCart, if_neg (h x (List.mem_cons_self x rest)),
        ih (fun y hy => h y (List.mem_cons_of_mem x hy)), List.cons_append]

/-- C8. `addItem` on an existing line (under unique line ids, positive
quantities, and oldQty + qty within the line's stock snapshot) yields the
same cart as `setQuantity(id, oldQty + qty)`; on a product with no line it
appends a new line holding a snapshot of the product's fields. -/
theorem addToCart_setQuantity_equiv (cart : List CartItem)
    (product : Product) (qty : ℤ) :
    (∀ item, item ∈ cart → item.id = product.id →
      (cart.map CartItem.id).Nodup → 1 ≤ item.quantity → 1 ≤ qty →
      item.quantity + qty ≤ item.stock →
      addToCart product qty cart
        = (updateQuantity product.id (item.quantity + qty) cart).1) ∧
    ((∀ item ∈ cart, item.id ≠ product.id) →
      addToCart product qty cart = cart ++ [snapshotLine product qty]) :=
  ⟨fun item hmem hid hnd h1 h2 h3 =>
      addToCart_existing product qty cart item hmem hid hnd h1 h2 h3,
   addToCart_new product qty cart⟩

theorem addToCart_setQuantity_equiv_witness :
    addToCart productW 3 cartW = (updateQuantity "a" 4 cartW).1 ∧
    addToCart productW 3 [itemP2] = [itemP2] ++ [snapshotLine productW 3] := by
  refine ⟨?_, (addToCart_setQuantity_equiv [itemP2] productW 3).2 (by decide)⟩
  exact (addToCart_setQuantity_equiv cartW productW 3).1
    { id := "a", name := "A", price := 3, image := "", stock := 10,
      category := "Electronics", description := "", quantity := 1 }
    (by decide) rfl (by decide) (by decide) (by decide) (by decide)

/-- C9 counterexample: `handleAddToCart` applies no stock cap, so two adds of
a product with stock 1 leave a line with quantity 2 > stock snapshot 1. -/
theorem addToCart_exceeds_stock_counterexample :
    addToCart productC9 1 (addToCart productC9 1 [])
      = [{ id := "p9", name := "P9", price := 2, image := "", stock := 1,
           category := "Clothing", description := "", quantity := 2 }] ∧
    ((addToCart productC9 1 (addToCart productC9 1 [])).all
        (fun item => decide (item.quantity ≤ item.stock))) = false := by
  refine ⟨by decide, by decide⟩

theorem addToCart_pos (product : Product) (qty : ℤ) (hq : 1 ≤ qty) :
    ∀ cart : List CartItem, (∀ item ∈ cart, 1 ≤ item.quantity) →
      ∀ item ∈ addToCart product qty cart, 1 ≤ item.quantity := by
  intro cart
  induction cart with
  | nil =>
      intro _ item hmem
      simp only [addToCart, List.mem_singleton] at hmem
      subst hmem
      exact hq
  | cons x rest ih =>
      intro h item hmem
      by_cases hx : x.id = product.id
      · simp only [addToCart, if_pos hx] at hmem
        rcases List.mem_cons.1 hmem with rfl | hmem2
        · have := h x (List.mem_cons_self x rest)
          simp only []
          omega
        · exact h item (List.mem_cons_of_mem x hmem2)
      · simp only [addToCart, if_neg hx] at hmem
        rcases List.mem_cons.1 hmem with rfl | hmem2
        · exact h item (List.mem_cons_self item rest)
        · exact ih (fun y hy => h y (List.mem_cons_of_mem x hy)) item hmem2

/-- C9 (amended). Every cart line's quantity stays a positive integer under
add-to-cart: after any sequence of `addItem` operations with each added
quantity ≥ 1, starting from a cart whose quantities are all ≥ 1, every
line's quantity is ≥ 1.  But `addItem` does not cap the quantity at the
product's last-known stock: repeated adds accumulate and a line's quantity
can exceed the stock snapshot recorded for that line (see the
counterexample). -/
theorem addToCart_quantity_positive (adds : List (Product × ℤ))
    (cart : List CartItem) (hadds : ∀ pq ∈ adds, 1 ≤ pq.2)
    (hcart : ∀ item ∈ cart, 1 ≤ item.quantity) :
    ∀ item ∈ addAll adds cart, 1 ≤ item.quantity := by
  induction adds generalizing cart with
  | nil => exact hcart
  | cons pq rest ih =>
      show ∀ item ∈ addAll rest (addToCart pq.1 pq.2 cart), 1 ≤ item.quantity
      exact ih (addToCart pq.1 pq.2 cart)
        (fun p hp => hadds p (List.mem_cons_of_mem pq hp))
        (addToCart_pos pq.1 pq.2 (hadds pq (List.mem_cons_self pq rest))
          cart hcart)

theorem addToCart_quantity_positive_witness :
    ((addAll [(productC9, 1), (productC9, 1)] []).all
      (fun item => decide (1 ≤ item.quantity))) = true := by
  have h := addToCart_quantity_positive [(productC9, 1), (productC9, 1)] []
    (by decide) (by intro item hmem; cases hmem)
  rw [List.all_eq_true]
  intro x hx
  simpa using h x hx

/-- C10. For every cart, product id and quantity q ≥ 1, `updateQuantity`
preserves the cart's length and leaves every line at a position whose id
differs from the targeted id completely unchanged. -/
theorem updateQuantity_frame (cart : List CartItem) (itemId : String)
    (q : ℤ) (hq : 1 ≤ q) :
    ((updateQuantity itemId q cart).1).length = cart.length ∧
    ∀ (i : ℕ) (h : i < cart.length)
      (h2 : i < ((updateQuantity itemId q cart).1).length),
      (cart.get ⟨i, h⟩).id ≠ itemId →
      ((updateQuantity itemId q cart).1).get ⟨i, h2⟩ = cart.get ⟨i, h⟩ := by
  have hq2 : ¬ q < 1 := not_lt.2 hq
  constructor
  · simp [updateQuantity, hq2]
  · intro i h h2 hid
    simp only [List.get_eq_getElem] at hid
    simp only [updateQuantity, if_neg hq2, List.get_eq_getElem,
      List.getElem_map] at h2 ⊢
    rw [if_neg hid]

theorem updateQuantity_frame_witness :
    ((updateQuantity "a" 5 cartW).1).length = cartW.length ∧
    ((updateQuantity "a" 5 cartW).1).get ⟨1, by decide⟩
      = cartW.get ⟨1, by decide⟩ := by
  have h := updateQuantity_frame cartW "a" 5 (by decide)
  exact ⟨h.1, h.2 1 (by decide) (by decide) (by decide)⟩
